import Mathlib

/-!
# Verification of the noneca_com order-ingestion pipeline

Shallow embedding of `seller_orders_pipeline.py` (MercadoLibreETL) and of the
rate-limiting part of `src/extractors/ml_api_client.py` (MLClient), together
with theorems settling the specification claims about them.

Conventions of the embedding:
* Python `datetime` values are modelled by `PyDateTime`: wall-clock
  microseconds (Python's exact datetime resolution) on the proleptic Gregorian
  calendar together with an optional UTC offset (`none` = timezone-naive,
  `some o` = timezone-aware with offset `o` seconds).  Comparing or
  subtracting a naive and an aware datetime raises `TypeError` in Python; the
  model returns `Except.error`.
* `datetime.fromisoformat` is modelled by `parseIso`, covering the grammar
  actually exercised by the pipeline: `YYYY-MM-DD`, optionally followed by a
  `T`/space separator, `HH:MM:SS`, an optional fractional-second part and an
  optional `+HH:MM`/`-HH:MM` offset.  Malformed strings yield `none`.
* Python `str.replace` (all non-overlapping occurrences, left to right) is
  modelled by `pyReplace`, written fuel-recursively so that it reduces in the
  kernel.
* `Decimal`/float amounts are modelled by `Rat`; external ids arrive from the
  JSON API as strings, so Python's `str(...)` on them is the identity.
-/

namespace NonecaETL

/-- Model of a Python `datetime`: `wall` is the local (wall-clock) time in
microseconds since 1970-01-01 on the proleptic Gregorian calendar; `offset`
is `none` for a naive datetime and `some o` (UTC offset in seconds) for an
aware one. -/
structure PyDateTime where
  wall : Int
  offset : Option Int
deriving DecidableEq, Repr

/-- One step of Python `str.replace`, fuelled so that it is structurally
recursive (fuel `= l.length` always suffices since every step consumes at
least one character when `pat` is nonempty). -/
def replaceAux (pat rep : List Char) : Nat → List Char → List Char
  | 0, l => l
  | n + 1, l =>
    if pat ≠ [] ∧ pat.isPrefixOf l then
      rep ++ replaceAux pat rep n (l.drop pat.length)
    else
      match l with
      | [] => []
      | c :: rest => c :: replaceAux pat rep n rest

/-- Python `s.replace(pat, rep)`: replace all non-overlapping occurrences,
scanning left to right. -/
def pyReplace (s pat rep : String) : String :=
  ⟨replaceAux pat.data rep.data s.data.length s.data⟩

/-- Python `s.endswith(suf)`. -/
def pyEndsWith (s suf : String) : Bool :=
  suf.data.isSuffixOf s.data

/-- Python `s[:-n]` for a string known to be at least `n` long. -/
def pyDropRight (s : String) (n : Nat) : String :=
  ⟨s.data.take (s.data.length - n)⟩

/-- Numeric value of a decimal digit character. -/
def digitVal (c : Char) : Nat := c.toNat - 48

/-- Value of a digit string (most significant first). -/
def digitsVal (l : List Char) : Nat :=
  l.foldl (fun a c => 10 * a + digitVal c) 0

/-- Gregorian leap-year test. -/
def isLeap (y : Int) : Bool :=
  (y % 4 == 0 && y % 100 != 0) || y % 400 == 0

/-- Days in month `m` of year `y`. -/
def daysInMonth (y : Int) (m : Nat) : Nat :=
  if m = 2 then (if isLeap y then 29 else 28)
  else if m = 4 ∨ m = 6 ∨ m = 9 ∨ m = 11 then 30
  else 31

/-- Day number (days since 1970-01-01) of a proleptic-Gregorian civil date;
the standard era-based algorithm. -/
def daysFromCivil (y m d : Int) : Int :=
  let y2 := if m ≤ 2 then y - 1 else y
  let era := (if 0 ≤ y2 then y2 else y2 - 399) / 400
  let yoe := y2 - era * 400
  let mp := if 2 < m then m - 3 else m + 9
  let doy := (153 * mp + 2) / 5 + d - 1
  let doe := yoe * 365 + yoe / 4 - yoe / 100 + doy
  era * 146097 + doe - 719468

/-- Parse the fixed `YYYY-MM-DD` date part, validating ranges. -/
def parseDatePart : List Char → Option (Int × Nat × Nat)
  | [y1, y2, y3, y4, s1, m1, m2, s2, d1, d2] =>
    if y1.isDigit && y2.isDigit && y3.isDigit && y4.isDigit &&
        m1.isDigit && m2.isDigit && d1.isDigit && d2.isDigit &&
        s1 == '-' && s2 == '-' then
      let y : Nat := digitsVal [y1, y2, y3, y4]
      let m : Nat := digitsVal [m1, m2]
      let d : Nat := digitsVal [d1, d2]
      if 1 ≤ m ∧ m ≤ 12 ∧ 1 ≤ d ∧ d ≤ daysInMonth (y : Int) m then
        some ((y : Int), m, d)
      else none
    else none
  | _ => none

/-- Parse an optional fractional-second part `.d+` (value in microseconds,
digits beyond the sixth truncated, mirroring `fromisoformat`); returns the
value and the remaining characters. -/
def parseFrac : List Char → Option (Nat × List Char)
  | '.' :: rest =>
    let ds := rest.takeWhile Char.isDigit
    if ds.length = 0 then none
    else some (digitsVal (ds.take 6) * 10 ^ (6 - min ds.length 6),
      rest.drop ds.length)
  | l => some (0, l)

/-- Parse an optional trailing UTC offset `+HH:MM` / `-HH:MM`; `none` input
characters means a naive datetime. -/
def parseOffsetPart : List Char → Option (Option Int)
  | [] => some none
  | sign :: rest =>
    if sign == '+' ∨ sign == '-' then
      match rest with
      | [h1, h2, c, m1, m2] =>
        if h1.isDigit && h2.isDigit && m1.isDigit && m2.isDigit && c == ':' then
          let hh := digitsVal [h1, h2]
          let mm := digitsVal [m1, m2]
          if hh ≤ 23 ∧ mm ≤ 59 then
            let secs : Int := (hh * 3600 + mm * 60 : Nat)
            some (some (if sign == '-' then -secs else secs))
          else none
        else none
      | _ => none
    else none

/-- Parse the `HH:MM:SS[.ffffff][±HH:MM]` time part; result is microseconds
into the day plus the optional offset. -/
def parseTimePart : List Char → Option (Nat × Option Int)
  | h1 :: h2 :: c1 :: m1 :: m2 :: c2 :: s1 :: s2 :: rest =>
    if h1.isDigit && h2.isDigit && m1.isDigit && m2.isDigit &&
        s1.isDigit && s2.isDigit && c1 == ':' && c2 == ':' then
      let hh := digitsVal [h1, h2]
      let mm := digitsVal [m1, m2]
      let ss := digitsVal [s1, s2]
      if hh ≤ 23 ∧ mm ≤ 59 ∧ ss ≤ 59 then
        match parseFrac rest with
        | none => none
        | some (frac, rest2) =>
          match parseOffsetPart rest2 with
          | none => none
          | some off =>
            some ((hh * 3600 + mm * 60 + ss) * 1000000 + frac, off)
      else none
    else none
  | _ => none

/-- Model of `datetime.fromisoformat` on the grammar used by the pipeline:
date only, or date + separator (`T` or space) + time (+ optional fraction,
optional offset).  Returns `none` where Python raises `ValueError`. -/
def parseIso (s : String) : Option PyDateTime :=
  let l := s.data
  match parseDatePart (l.take 10) with
  | none => none
  | some (y, m, d) =>
    let dayWall : Int := daysFromCivil y (m : Int) (d : Int) * 86400000000
    match l.drop 10 with
    | [] => some ⟨dayWall, none⟩
    | sep :: timeRest =>
      if sep == 'T' ∨ sep == ' ' then
        match parseTimePart timeRest with
        | none => none
        | some (micros, off) => some ⟨dayWall + (micros : Int), off⟩
      else none

/-- The instant a `PyDateTime` denotes for comparison/subtraction purposes:
wall-clock microseconds with the UTC offset removed (identity on naive
values). -/
def pyAbsTime (dt : PyDateTime) : Int :=
  dt.wall - dt.offset.getD 0 * 1000000

/-- Python datetime subtraction: `a - b` as a timedelta in microseconds;
mixing a naive and an aware datetime raises `TypeError`. -/
def pySub (a b : PyDateTime) : Except String Int :=
  if a.offset.isSome = b.offset.isSome then
    .ok (pyAbsTime a - pyAbsTime b)
  else
    .error "TypeError: cannot subtract offset-naive and offset-aware datetimes"

/-- Python datetime `<`: raises `TypeError` on naive/aware mixing. -/
def pyLt (a b : PyDateTime) : Except String Bool :=
  if a.offset.isSome = b.offset.isSome then
    .ok (decide (pyAbsTime a < pyAbsTime b))
  else
    .error "TypeError: cannot compare offset-naive and offset-aware datetimes"

/-- Python datetime `>`: raises `TypeError` on naive/aware mixing. -/
def pyGt (a b : PyDateTime) : Except String Bool :=
  if a.offset.isSome = b.offset.isSome then
    .ok (decide (pyAbsTime b < pyAbsTime a))
  else
    .error "TypeError: cannot compare offset-naive and offset-aware datetimes"

/-! ## Raw API payloads

The fields of the raw order JSON that `transform_order` reads.  Required
fields (accessed with `order_data[...]`) are plain; fields accessed with
`.get(...)` (including through a `.get(..., {})` nested dict) are `Option`.
External ids arrive as JSON strings, so Python's `str(...)` on them is the
identity; opaque JSON blobs (tags, feedback, context, variation attributes)
are modelled as opaque strings; `Decimal(str(v))` is the identity on the
modelled numeric domain `Rat`. -/

/-- One element of `order_data["order_items"]`, with the nested
`item_data.get("item", {})` dict flattened into `Option` fields. -/
structure RawItem where
  element_id : Option Int
  item_id : Option String
  title : Option String
  category_id : Option String
  variation_id : Option Int
  seller_sku : Option String
  quantity : Option Int
  unit_price : Option Rat
  full_unit_price : Option Rat
  sale_fee : Option Rat
  listing_type_id : Option String
  condition : Option String
  warranty : Option String
  variation_attributes : Option String
deriving DecidableEq, Repr

/-- One element of `order_data["payments"]`, with
`payment_data.get("collector", {}).get("id")` flattened. -/
structure RawPayment where
  id : String
  payer_id : Option Int
  collector_id : Option Int
  status : String
  status_detail : Option String
  payment_method_id : String
  payment_type : String
  operation_type : String
  transaction_amount : Option Rat
  total_paid_amount : Option Rat
  transaction_amount_refunded : Option Rat
  date_created : String
  date_approved : Option String
  date_last_modified : Option String
  installments : Option Int
  installment_amount : Option Rat
  issuer_id : Option String
  reason : Option String
  shipping_cost : Option Rat
  taxes_amount : Option Rat
  coupon_amount : Option Rat
deriving DecidableEq, Repr

/-- A raw order payload as consumed by `transform_order` and
`fetch_all_orders` (`order["id"]`, `order["date_created"]`). -/
structure RawOrder where
  id : String
  seller_id : Int
  buyer_id : Option Int
  buyer_nickname : Option String
  status : String
  status_detail : Option String
  date_created : String
  date_closed : Option String
  date_last_updated : Option String
  expiration_date : Option String
  total_amount : Option Rat
  paid_amount : Option Rat
  currency_id : String
  shipping_cost : Option Rat
  pack_id : Option String
  fulfilled : Option Bool
  comment : Option String
  tags : Option String
  feedback : Option String
  context : Option String
  order_items : List RawItem
  payments : List RawPayment
deriving DecidableEq, Repr

/-! ## Transformed (database) records, mirroring the SQLAlchemy models -/

/-- A row of the `orders` table / the `"order"` dict built by
`transform_order`. -/
structure Order where
  id : String
  seller_id : Int
  buyer_id : Option Int
  buyer_nickname : Option String
  status : String
  status_detail : Option String
  date_created : Option PyDateTime
  date_closed : Option PyDateTime
  date_last_updated : Option PyDateTime
  expiration_date : Option PyDateTime
  total_amount : Option Rat
  paid_amount : Option Rat
  currency_id : String
  shipping_cost : Option Rat
  pack_id : Option String
  fulfilled : Option Bool
  comment : Option String
  tags : Option String
  feedback_data : Option String
  context_data : Option String
  processing_time_hours : Option Rat
deriving DecidableEq, Repr

/-- A row of the `order_items` table (the synthetic autoincrement key is
omitted: it carries no information the claims mention). -/
structure OrderItem where
  order_id : String
  element_id : Option Int
  item_id : Option String
  title : Option String
  category_id : Option String
  variation_id : Option String
  seller_sku : Option String
  quantity : Option Int
  unit_price : Option Rat
  full_unit_price : Option Rat
  sale_fee : Option Rat
  listing_type_id : Option String
  condition : Option String
  warranty : Option String
  variation_attributes : Option String
deriving DecidableEq, Repr

/-- A row of the `payments` table. -/
structure Payment where
  id : String
  order_id : String
  payer_id : Option Int
  collector_id : Option Int
  status : String
  status_detail : Option String
  payment_method_id : String
  payment_type : String
  operation_type : String
  transaction_amount : Option Rat
  total_paid_amount : Option Rat
  transaction_amount_refunded : Option Rat
  date_created : Option PyDateTime
  date_approved : Option PyDateTime
  date_last_modified : Option PyDateTime
  installments : Option Int
  installment_amount : Option Rat
  issuer_id : Option String
  reason : Option String
  shipping_cost : Option Rat
  taxes_amount : Option Rat
  coupon_amount : Option Rat
deriving DecidableEq, Repr

/-- Output of `transform_order`: `{"order": ..., "items": ..., "payments": ...}`. -/
structure Transformed where
  order : Order
  items : List OrderItem
  payments : List Payment
deriving DecidableEq, Repr

/-! ## The transformer (`MercadoLibreETL.transform_order`) -/

/-- `safe_decimal`: `Decimal(str(value)) if value is not None else None`,
identity on the modelled numeric domain. -/
def safe_decimal (v : Option Rat) : Option Rat := v

/-- `safe_datetime`: `None` for an absent or empty (falsy) string, otherwise
replace `"Z"` by `"+00:00"`, strip a trailing `"-04:00"`/`"-03:00"` suffix,
and parse; a `ValueError` from parsing is caught and mapped to `None`. -/
def safe_datetime (ds : Option String) : Option PyDateTime :=
  match ds with
  | none => none
  | some s =>
    if s = "" then none
    else
      let c := pyReplace s "Z" "+00:00"
      let c := if pyEndsWith c "-04:00" || pyEndsWith c "-03:00"
               then pyDropRight c 6 else c
      parseIso c

/-- `(closed - created).total_seconds() / 3600`: a timedelta in microseconds
expressed in hours. -/
def hoursOfMicros (d : Int) : Rat := (d : Rat) / 1000000 / 3600

/-- The processing-time block of `transform_order`: when both date strings
are truthy and both parse, the wall-clock difference in hours; a `TypeError`
from subtracting a naive and an aware datetime propagates. -/
def computeProcessingTime (o : RawOrder) : Except String (Option Rat) :=
  if o.date_created ≠ "" ∧ o.date_closed.getD "" ≠ "" then
    match safe_datetime (some o.date_created), safe_datetime o.date_closed with
    | some created, some closed =>
      match pySub closed created with
      | .ok d => .ok (some (hoursOfMicros d))
      | .error e => .error e
    | _, _ => .ok none
  else .ok none

/-- The `"order"` dict of `transform_order`. -/
def buildOrder (o : RawOrder) (pt : Option Rat) : Order :=
  { id := o.id
    seller_id := o.seller_id
    buyer_id := o.buyer_id
    buyer_nickname := o.buyer_nickname
    status := o.status
    status_detail := o.status_detail
    date_created := safe_datetime (some o.date_created)
    date_closed := safe_datetime o.date_closed
    date_last_updated := safe_datetime o.date_last_updated
    expiration_date := safe_datetime o.expiration_date
    total_amount := safe_decimal o.total_amount
    paid_amount := safe_decimal o.paid_amount
    currency_id := o.currency_id
    shipping_cost := safe_decimal o.shipping_cost
    pack_id := o.pack_id
    fulfilled := o.fulfilled
    comment := o.comment
    tags := o.tags
    feedback_data := o.feedback
    context_data := o.context
    processing_time_hours := safe_decimal pt }

/-- One element of the `"items"` list of `transform_order`. -/
def transformItem (oid : String) (it : RawItem) : OrderItem :=
  { order_id := oid
    element_id := it.element_id
    item_id := it.item_id
    title := it.title
    category_id := it.category_id
    variation_id :=
      match it.variation_id with
      | some v => if v ≠ 0 then some (toString v) else none
      | none => none
    seller_sku := it.seller_sku
    quantity := it.quantity
    unit_price := safe_decimal it.unit_price
    full_unit_price := safe_decimal it.full_unit_price
    sale_fee := safe_decimal it.sale_fee
    listing_type_id := it.listing_type_id
    condition := it.condition
    warranty := it.warranty
    variation_attributes := it.variation_attributes }

/-- One element of the `"payments"` list of `transform_order`. -/
def transformPayment (oid : String) (p : RawPayment) : Payment :=
  { id := p.id
    order_id := oid
    payer_id := p.payer_id
    collector_id := p.collector_id
    status := p.status
    status_detail := p.status_detail
    payment_method_id := p.payment_method_id
    payment_type := p.payment_type
    operation_type := p.operation_type
    transaction_amount := safe_decimal p.transaction_amount
    total_paid_amount := safe_decimal p.total_paid_amount
    transaction_amount_refunded := safe_decimal p.transaction_amount_refunded
    date_created := safe_datetime (some p.date_created)
    date_approved := safe_datetime p.date_approved
    date_last_modified := safe_datetime p.date_last_modified
    installments := p.installments
    installment_amount := safe_decimal p.installment_amount
    issuer_id := p.issuer_id
    reason := p.reason
    shipping_cost := safe_decimal p.shipping_cost
    taxes_amount := safe_decimal p.taxes_amount
    coupon_amount := safe_decimal p.coupon_amount }

/-- `MercadoLibreETL.transform_order`: raw payload to database records.  The
only modelled exception source is the naive/aware `TypeError` in the
processing-time subtraction (required identity fields are present by typing).
-/
def transform_order (o : RawOrder) : Except String Transformed :=
  match computeProcessingTime o with
  | .error e => .error e
  | .ok pt =>
    .ok { order := buildOrder o pt
          items := o.order_items.map (transformItem o.id)
          payments := o.payments.map (transformPayment o.id) }

/-! ## The loader (`MercadoLibreETL.load_batch`)

The relational store is modelled as lists of rows; `session.add` appends,
`query(...).delete()` removes all matching rows, and the field-by-field
`setattr` loop over `data["order"]` (which carries every scalar column)
replaces the matched row wholesale.  `query(Order).filter_by(id=...).first()`
touches the first matching row. -/

/-- The three order tables. -/
structure Db where
  orders : List Order
  items : List OrderItem
  payments : List Payment
deriving DecidableEq, Repr

/-- Overwrite every scalar field of the first `orders` row whose id matches
`t.id` with `t`'s fields (the `setattr` loop). -/
def replaceFirstOrder : List Order → Order → List Order
  | [], _ => []
  | r :: rest, t => if r.id = t.id then t :: rest else r :: replaceFirstOrder rest t

/-- Load one transformed record: update-or-insert the `orders` row, delete all
child rows on update, then append the record's items and payments. -/
def load_one (db : Db) (t : Transformed) : Db :=
  if db.orders.any (fun r => r.id == t.order.id) then
    { orders := replaceFirstOrder db.orders t.order
      items := db.items.filter (fun i => !(i.order_id == t.order.id)) ++ t.items
      payments := db.payments.filter (fun p => !(p.order_id == t.order.id)) ++ t.payments }
  else
    { orders := db.orders ++ [t.order]
      items := db.items ++ t.items
      payments := db.payments ++ t.payments }

/-- `MercadoLibreETL.load_batch` (the success path: the single commit at the
end is the identity on the modelled state). -/
def load_batch (db : Db) (batch : List Transformed) : Db :=
  batch.foldl load_one db

/-! ## The ETL state tracker (`MercadoLibreETL._update_etl_state`) -/

/-- A row of the `etl_state` table. -/
structure ETLState where
  seller_id : Int
  last_processed_date : Option Int
  last_offset : Int
  total_processed : Int
  last_run_date : Int
  status : String
  last_order_id : Option String
deriving DecidableEq, Repr

/-- The field assignments of `_update_etl_state` applied to one row; note the
Python truthiness test `if last_order_id:` means both `None` and `""` leave
`last_order_id` untouched. -/
def applyStateFields (offset total now : Int) (status : String)
    (lastOrderId : Option String) (r : ETLState) : ETLState :=
  { r with
    last_offset := offset
    total_processed := total
    last_run_date := now
    status := status
    last_order_id :=
      match lastOrderId with
      | some s => if s = "" then r.last_order_id else some s
      | none => r.last_order_id }

/-- Update the first row matching the seller, or append the freshly created
row (`session.add`) when none matches. -/
def updateFirstState (seller : Int) (f : ETLState → ETLState)
    (newRow : ETLState) : List ETLState → List ETLState
  | [] => [newRow]
  | r :: rest =>
    if r.seller_id = seller then f r :: rest
    else r :: updateFirstState seller f newRow rest

/-- `ETLState(seller_id=seller_id)` with the column defaults. -/
def freshStateRow (seller : Int) : ETLState :=
  { seller_id := seller, last_processed_date := none, last_offset := 0
    total_processed := 0, last_run_date := 0, status := "running"
    last_order_id := none }

/-- `MercadoLibreETL._update_etl_state` (the success path: the commit is the
identity on the modelled table). -/
def update_etl_state (rows : List ETLState) (seller : Int) (offset total : Int)
    (now : Int) (status : String) (lastOrderId : Option String) : List ETLState :=
  updateFirstState seller (applyStateFields offset total now status lastOrderId)
    (applyStateFields offset total now status lastOrderId (freshStateRow seller)) rows

/-- The `KeyboardInterrupt` handler of `main` (lines 702-704):
`etl._update_etl_state(args.seller, 0, 0, status="paused")`. -/
def main_on_interrupt (rows : List ETLState) (seller : Int) (now : Int) : List ETLState :=
  update_etl_state rows seller 0 0 now "paused" none

/-! ## The API client rate limiter (`MLClient._check_rate` / `_req`) -/

/-- `self._rate = {"calls": ..., "reset": ...}` (reset time in seconds). -/
structure RateState where
  calls : Nat
  reset : Int
deriving DecidableEq, Repr

/-- `MLClient._check_rate`: reset the window if more than one minute elapsed,
fail when the counter has reached `cfg.rate_limit`, otherwise count the call.
The returned state keeps the mutation performed before a raise. -/
def check_rate (rate_limit : Nat) (now : Int) (s : RateState) :
    RateState × Option String :=
  let s1 := if now - s.reset > 60 then { calls := 0, reset := now } else s
  if s1.calls ≥ rate_limit then (s1, some "Rate limit exceeded")
  else ({ s1 with calls := s1.calls + 1 }, none)

/-- `MLClient._req` up to the transport: `_check_rate` runs first, and only
when it passes is a network request issued.  The final component counts the
network requests made by the call. -/
def ml_req (rate_limit : Nat) (now : Int) (s : RateState) :
    RateState × Option String × Nat :=
  match check_rate rate_limit now s with
  | (s1, some e) => (s1, some e, 0)
  | (s1, none) => (s1, none, 1)

/-! ## The order fetcher (`MercadoLibreETL.fetch_all_orders`) -/

/-- The loop-local state of `fetch_all_orders`. -/
structure FetchState where
  seen : List String
  emptyCalls : Nat
  totalFetched : Int
deriving DecidableEq, Repr

/-- `seen_order_ids.add(...)` over a list of ids (insertion-ordered set). -/
def addSeen (seen : List String) (ids : List String) : List String :=
  ids.foldl (fun ac i => if ac.contains i then ac else ac ++ [i]) seen

/-- `max_empty_calls = 3`. -/
def max_empty_calls : Nat := 3

/-- The date cleaning inside `_filter_orders_by_date`: note it uses
`str.replace` (all occurrences) for the offsets, unlike `safe_datetime`, and
that a parse failure is not caught there. -/
def filterParseDate (s : String) : Except String PyDateTime :=
  let c := pyReplace (pyReplace (pyReplace s "Z" "+00:00") "-04:00" "") "-03:00" ""
  match parseIso c with
  | some dt => .ok dt
  | none => .error ("ValueError: Invalid isoformat string: " ++ c)

/-- Uncaught `datetime.fromisoformat` (used on the start/end bounds). -/
def pyFromIso (s : String) : Except String PyDateTime :=
  match parseIso s with
  | some dt => .ok dt
  | none => .error ("ValueError: Invalid isoformat string: " ++ s)

/-- The loop body of `_filter_orders_by_date` for one order: parse the
order's stamp, then apply the two inclusive bound tests (the end bound is
only parsed when the order is still included). -/
def includeOrder (sd ed : Option String) (o : RawOrder) : Except String Bool :=
  match filterParseDate o.date_created with
  | .error e => .error e
  | .ok od =>
    let startTest : Except String Bool :=
      match sd with
      | none => .ok true
      | some s =>
        match pyFromIso s with
        | .error e => .error e
        | .ok sdt =>
          match pyLt od sdt with
          | .error e => .error e
          | .ok b => .ok (!b)
    match startTest with
    | .error e => .error e
    | .ok inc =>
      if inc then
        match ed with
        | none => .ok true
        | some e2 =>
          match pyFromIso e2 with
          | .error e => .error e
          | .ok edt =>
            match pyGt od edt with
            | .error e => .error e
            | .ok b => .ok (!b)
      else .ok false

/-- The filtering loop of `_filter_orders_by_date`. -/
def filterGo (sd ed : Option String) : List RawOrder → Except String (List RawOrder)
  | [] => .ok []
  | o :: rest =>
    match includeOrder sd ed o with
    | .error e => .error e
    | .ok b =>
      match filterGo sd ed rest with
      | .error e => .error e
      | .ok r => .ok (if b then o :: r else r)

/-- `MercadoLibreETL._filter_orders_by_date`. -/
def filter_orders_by_date (orders : List RawOrder) (sd ed : Option String) :
    Except String (List RawOrder) :=
  if sd = none ∧ ed = none then .ok orders else filterGo sd ed orders

/-- One iteration of the `fetch_all_orders` loop body on a fetched page:
returns the successor state and the batch yielded by the iteration, if any.
Mirrors lines 276-321 of the source. -/
def fetchStep (sd ed : Option String) (page : List RawOrder) (s : FetchState) :
    Except String (FetchState × Option (List RawOrder)) :=
  if page.isEmpty then
    .ok ({ s with emptyCalls := s.emptyCalls + 1 }, none)
  else
    let newOrders := page.filter (fun o => !(s.seen.contains o.id))
    if newOrders.isEmpty then
      .ok ({ s with
             emptyCalls := s.emptyCalls + 1
             seen := addSeen s.seen (page.map (fun o => o.id)) }, none)
    else
      match filter_orders_by_date newOrders sd ed with
      | .error e => .error e
      | .ok filtered =>
        if filtered.isEmpty then
          .ok ({ s with
                 emptyCalls := 0
                 seen := addSeen s.seen (newOrders.map (fun o => o.id)) }, none)
        else
          .ok ({ seen := addSeen s.seen (filtered.map (fun o => o.id))
                 emptyCalls := 0
                 totalFetched := s.totalFetched + filtered.length }, some filtered)

/-- The paused-state seeding at the top of `fetch_all_orders` (lines
256-269): resume the running total and seed the seen set from the seller's
existing `orders` rows only when the state row exists with status
`"paused"`. -/
def initFetchState (states : List ETLState) (orders : List Order)
    (seller : Int) : FetchState :=
  match states.find? (fun r => r.seller_id == seller) with
  | some st =>
    if st.status = "paused" then
      { seen := (orders.filter (fun o => o.seller_id == seller)).map (fun o => o.id)
        emptyCalls := 0
        totalFetched := st.total_processed }
    else { seen := [], emptyCalls := 0, totalFetched := 0 }
  | none => { seen := [], emptyCalls := 0, totalFetched := 0 }

deriving instance DecidableEq for Except

/-- What a run of the `fetch_all_orders` generator produced: the batches
yielded to the caller, the exit mode (`.ok` = the while-loop condition turned
false; `.error e` = the generator re-raised `e`), and the `etl_state` table
after the run's writes. -/
structure RunOutcome where
  batches : List (List RawOrder)
  result : Except String FetchState
  states : List ETLState
deriving DecidableEq, Repr

/-- The `while consecutive_empty_calls < max_empty_calls` loop of
`fetch_all_orders`, fuelled (`none` = the loop was still running after `fuel`
iterations).  `pages k` is the result of the `k`-th `fetch_orders_page` call
(`.error` = the call raised).  On a batch, the state write of line 325 runs
with status `"running"` and the batch's last order id; on an exception, the
write of line 339 runs with status `"error"` and the running total, and the
exception is re-raised. -/
def fetch_all_orders (pages : Nat → Except String (List RawOrder))
    (sd ed : Option String) (seller : Int) (now : Int) :
    Nat → FetchState → Nat → List ETLState → Option RunOutcome
  | 0, _, _, _ => none
  | fuel + 1, s, k, states =>
    if s.emptyCalls ≥ max_empty_calls then some ⟨[], .ok s, states⟩
    else
      match pages k with
      | .error e =>
        some ⟨[], .error e,
          update_etl_state states seller 0 s.totalFetched now "error" none⟩
      | .ok page =>
        match fetchStep sd ed page s with
        | .error e =>
          some ⟨[], .error e,
            update_etl_state states seller 0 s.totalFetched now "error" none⟩
        | .ok (s2, none) => fetch_all_orders pages sd ed seller now fuel s2 (k + 1) states
        | .ok (s2, some batch) =>
          let states2 := update_etl_state states seller 0 s2.totalFetched now
            "running" (batch.getLast?.map (fun o => o.id))
          match fetch_all_orders pages sd ed seller now fuel s2 (k + 1) states2 with
          | none => none
          | some r => some ⟨batch :: r.batches, r.result, r.states⟩

/-! ## Auxiliary lemmas -/

theorem contains_iff_mem (l : List String) (x : String) :
    l.contains x = true ↔ x ∈ l := by
  induction l with
  | nil => simp [List.contains, List.elem]
  | cons a l ih =>
    simp only [List.contains, List.elem] at ih ⊢
    cases h : x == a with
    | true => simp [List.mem_cons, eq_of_beq h]
    | false =>
      simp only [List.mem_cons, ih]
      constructor
      · exact Or.inr
      · rintro (rfl | hx)
        · simp at h
        · exact hx

theorem length_filter_mono (l : List α) (p q : α → Bool)
    (h : ∀ a ∈ l, q a = true → p a = true) :
    (l.filter q).length ≤ (l.filter p).length := by
  induction l with
  | nil => simp
  | cons a l ih =>
    have ih2 := ih (fun b hb => h b (List.mem_cons_of_mem a hb))
    by_cases hq : q a = true
    · have hp := h a (List.mem_cons_self a l) hq
      simp [List.filter_cons, hq, hp]
      omega
    · rw [Bool.not_eq_true] at hq
      by_cases hp : p a = true
      · simp [List.filter_cons, hq, hp]
        omega
      · rw [Bool.not_eq_true] at hp
        simpa [List.filter_cons, hq, hp] using ih2

theorem length_filter_lt (l : List α) (p q : α → Bool)
    (h : ∀ a ∈ l, q a = true → p a = true)
    (a0 : α) (ha0 : a0 ∈ l) (hp0 : p a0 = true) (hq0 : q a0 = false) :
    (l.filter q).length < (l.filter p).length := by
  induction l with
  | nil => cases ha0
  | cons a l ih =>
    have hmono : (l.filter q).length ≤ (l.filter p).length :=
      length_filter_mono l p q (fun b hb => h b (List.mem_cons_of_mem a hb))
    rcases List.mem_cons.mp ha0 with rfl | hm
    · simp [List.filter_cons, hp0, hq0]
      omega
    · have ih2 := ih (fun b hb => h b (List.mem_cons_of_mem a hb)) hm
      by_cases hq : q a = true
      · have hp := h a (List.mem_cons_self a l) hq
        simp [List.filter_cons, hq, hp]
        omega
      · rw [Bool.not_eq_true] at hq
        by_cases hp : p a = true
        · simp [List.filter_cons, hq, hp]
          omega
        · rw [Bool.not_eq_true] at hp
          simpa [List.filter_cons, hq, hp] using ih2

theorem contains_addSeen (seen ids : List String) (x : String) :
    (addSeen seen ids).contains x = true ↔ seen.contains x = true ∨ x ∈ ids := by
  induction ids generalizing seen with
  | nil => simp [addSeen]
  | cons i ids ih =>
    rw [show addSeen seen (i :: ids)
        = addSeen (if seen.contains i then seen else seen ++ [i]) ids from rfl, ih]
    by_cases hc : seen.contains i = true
    · rw [if_pos hc]
      simp only [contains_iff_mem] at hc ⊢
      simp only [List.mem_cons]
      constructor
      · tauto
      · rintro (hx | rfl | hx) <;> tauto
    · rw [if_neg hc]
      simp only [contains_iff_mem] at hc ⊢
      simp only [List.mem_append, List.mem_singleton, List.mem_cons]
      tauto

theorem contains_addSeen_of_contains (seen ids : List String) (x : String)
    (h : seen.contains x = true) : (addSeen seen ids).contains x = true :=
  (contains_addSeen seen ids x).mpr (Or.inl h)

theorem addSeen_of_all_contains (seen ids : List String)
    (h : ∀ i ∈ ids, seen.contains i = true) : addSeen seen ids = seen := by
  induction ids with
  | nil => rfl
  | cons i ids ih =>
    rw [show addSeen seen (i :: ids)
        = addSeen (if seen.contains i then seen else seen ++ [i]) ids from rfl,
      if_pos (h i (List.mem_cons_self i ids))]
    exact ih (fun j hj => h j (List.mem_cons_of_mem i hj))

theorem filterGo_mem (sd ed : Option String) (l f : List RawOrder)
    (h : filterGo sd ed l = .ok f) :
    ∀ o, o ∈ f ↔ o ∈ l ∧ includeOrder sd ed o = .ok true := by
  induction l generalizing f with
  | nil =>
    simp only [filterGo, Except.ok.injEq] at h
    subst h
    simp
  | cons a l ih =>
    intro o
    rw [filterGo] at h
    cases hb : includeOrder sd ed a with
    | error e => rw [hb] at h; cases h
    | ok b =>
      rw [hb] at h
      cases hr : filterGo sd ed l with
      | error e => rw [hr] at h; cases h
      | ok r =>
        rw [hr] at h
        simp only [Except.ok.injEq] at h
        subst h
        have ihr := ih r hr o
        cases b with
        | true =>
          constructor
          · intro hm
            rcases List.mem_cons.mp (by simpa using hm) with rfl | hr2
            · exact ⟨List.mem_cons_self _ _, hb⟩
            · obtain ⟨hl, hi⟩ := ihr.mp hr2
              exact ⟨List.mem_cons_of_mem a hl, hi⟩
          · rintro ⟨hm, hi⟩
            rcases List.mem_cons.mp hm with rfl | hl
            · simpa using List.mem_cons_self o r
            · simpa using List.mem_cons_of_mem a (ihr.mpr ⟨hl, hi⟩)
        | false =>
          constructor
          · intro hm
            obtain ⟨hl, hi⟩ := ihr.mp (by simpa using hm)
            exact ⟨List.mem_cons_of_mem a hl, hi⟩
          · rintro ⟨hm, hi⟩
            rcases List.mem_cons.mp hm with rfl | hl
            · rw [hb] at hi
              simp at hi
            · simpa using ihr.mpr ⟨hl, hi⟩

theorem filterGo_error_of_mem (sd ed : Option String) (l : List RawOrder)
    (o : RawOrder) (e : String) (hm : o ∈ l)
    (he : includeOrder sd ed o = .error e) :
    ∃ e2, filterGo sd ed l = .error e2 := by
  induction l with
  | nil => cases hm
  | cons a l ih =>
    rcases List.mem_cons.mp hm with rfl | hl
    · exact ⟨e, by rw [filterGo, he]⟩
    · cases hb : includeOrder sd ed a with
      | error e3 => exact ⟨e3, by rw [filterGo, hb]⟩
      | ok b =>
        obtain ⟨e2, h2⟩ := ih hl
        exact ⟨e2, by rw [filterGo, hb, h2]⟩

theorem filter_ok_sub (l f : List RawOrder) (sd ed : Option String)
    (h : filter_orders_by_date l sd ed = .ok f) :
    ∀ o ∈ f, o ∈ l := by
  rw [filter_orders_by_date] at h
  by_cases hn : sd = none ∧ ed = none
  · rw [if_pos hn] at h
    cases h
    exact fun o ho => ho
  · rw [if_neg hn] at h
    exact fun o ho => ((filterGo_mem sd ed l f h o).mp ho).1

theorem fetchStep_ok_inv (sd ed : Option String) (page : List RawOrder)
    (s s2 : FetchState) (ob : Option (List RawOrder))
    (h : fetchStep sd ed page s = .ok (s2, ob)) :
    (∀ x, s.seen.contains x = true → s2.seen.contains x = true)
    ∧ (s2.seen = s.seen ∧ s2.emptyCalls = s.emptyCalls + 1 ∧ ob = none
         ∧ s2.totalFetched = s.totalFetched
       ∨ s2.emptyCalls = 0
         ∧ ∃ o, o ∈ page ∧ s.seen.contains o.id = false
             ∧ s2.seen.contains o.id = true)
    ∧ (∀ b, ob = some b →
        ∀ o ∈ b, s.seen.contains o.id = false ∧ s2.seen.contains o.id = true) := by
  rw [fetchStep] at h
  by_cases hpe : page.isEmpty = true
  · rw [if_pos hpe] at h
    simp only [Except.ok.injEq, Prod.mk.injEq] at h
    obtain ⟨h2, hob⟩ := h
    subst h2
    refine ⟨fun x hx => hx, Or.inl ⟨rfl, rfl, hob.symm, rfl⟩, ?_⟩
    intro b hb
    rw [← hob] at hb
    cases hb
  · rw [if_neg hpe] at h
    simp only at h
    by_cases hne : (page.filter fun o => !(s.seen.contains o.id)).isEmpty = true
    · rw [if_pos hne] at h
      simp only [Except.ok.injEq, Prod.mk.injEq] at h
      obtain ⟨h2, hob⟩ := h
      subst h2
      have hall : ∀ i ∈ page.map (fun o => o.id), s.seen.contains i = true := by
        intro i hi
        obtain ⟨o, ho, rfl⟩ := List.mem_map.mp hi
        have := List.filter_eq_nil.mp (List.isEmpty_iff.mp hne) o ho
        simpa using this
      have hseen : addSeen s.seen (page.map fun o => o.id) = s.seen :=
        addSeen_of_all_contains _ _ hall
      refine ⟨fun x hx => by simpa [hseen] using hx,
        Or.inl ⟨by simpa using hseen, rfl, hob.symm, rfl⟩, ?_⟩
      intro b hb
      rw [← hob] at hb
      cases hb
    · rw [if_neg hne] at h
      cases hf : filter_orders_by_date (page.filter fun o => !(s.seen.contains o.id)) sd ed with
      | error e => rw [hf] at h; cases h
      | ok filtered =>
        rw [hf] at h
        dsimp only at h
        have hsub : ∀ o ∈ filtered, o ∈ page.filter fun o => !(s.seen.contains o.id) :=
          filter_ok_sub _ _ _ _ hf
        by_cases hfe : filtered.isEmpty = true
        · rw [if_pos hfe] at h
          simp only [Except.ok.injEq, Prod.mk.injEq] at h
          obtain ⟨h2, hob⟩ := h
          subst h2
          have hnn : (page.filter fun o => !(s.seen.contains o.id)) ≠ [] :=
            fun hnil => hne (by rw [hnil]; rfl)
          obtain ⟨o0, rest, hcons⟩ := List.exists_cons_of_ne_nil hnn
          have ho0 : o0 ∈ page.filter fun o => !(s.seen.contains o.id) := by
            rw [hcons]; exact List.mem_cons_self _ _
          obtain ⟨ho0p, ho0n⟩ := List.mem_filter.mp ho0
          refine ⟨fun x hx => contains_addSeen_of_contains _ _ _ hx,
        Or.inr ⟨rfl, o0, ho0p, by simpa using ho0n, ?_⟩, ?_⟩
          · exact (contains_addSeen _ _ _).mpr
              (Or.inr (List.mem_map_of_mem _ ho0))
          · intro b hb
            rw [← hob] at hb
            cases hb
        · rw [if_neg hfe] at h
          simp only [Except.ok.injEq, Prod.mk.injEq] at h
          obtain ⟨h2, hob⟩ := h
          subst h2
          have hnn : filtered ≠ [] := fun hnil => hfe (by rw [hnil]; rfl)
          obtain ⟨o0, rest, hcons⟩ := List.exists_cons_of_ne_nil hnn
          have ho0f : o0 ∈ filtered := by rw [hcons]; exact List.mem_cons_self _ _
          obtain ⟨ho0p, ho0n⟩ := List.mem_filter.mp (hsub o0 ho0f)
          refine ⟨fun x hx => contains_addSeen_of_contains _ _ _ hx,
            Or.inr ⟨rfl, o0, ho0p, by simpa using ho0n, ?_⟩, ?_⟩
          · exact (contains_addSeen _ _ _).mpr
              (Or.inr (List.mem_map_of_mem _ ho0f))
          · intro b hb o ho
            have hbf : b = filtered := by
              rw [← hob] at hb
              exact (Option.some.injEq _ _).mp hb.symm
            subst hbf
            obtain ⟨hop, hon⟩ := List.mem_filter.mp (hsub o ho)
            exact ⟨by simpa using hon,
              (contains_addSeen _ _ _).mpr (Or.inr (List.mem_map_of_mem _ ho))⟩

theorem fetchStep_noNew (sd ed : Option String) (page : List RawOrder)
    (s : FetchState)
    (hnn : page.filter (fun o => !(s.seen.contains o.id)) = []) :
    fetchStep sd ed page s
      = .ok (⟨s.seen, s.emptyCalls + 1, s.totalFetched⟩, none) := by
  obtain ⟨seen, ec, tot⟩ := s
  rw [fetchStep]
  by_cases hpe : page.isEmpty = true
  · rw [if_pos hpe]
  · rw [if_neg hpe]
    dsimp only at hnn ⊢
    rw [if_pos (by rw [hnn]; rfl)]
    have hall : ∀ i ∈ page.map (fun o => o.id), List.contains seen i = true := by
      intro i hi
      obtain ⟨o, ho, rfl⟩ := List.mem_map.mp hi
      have := List.filter_eq_nil_iff.mp hnn o ho
      simpa using this
    rw [addSeen_of_all_contains _ _ hall]

theorem run_only_exit_at_three (pages : Nat → Except String (List RawOrder))
    (sd ed : Option String) (seller now : Int) :
    ∀ (fuel : Nat) (s : FetchState) (k : Nat) (states : List ETLState)
      (r : RunOutcome) (s3 : FetchState),
      s.emptyCalls ≤ max_empty_calls →
      fetch_all_orders pages sd ed seller now fuel s k states = some r →
      r.result = .ok s3 → s3.emptyCalls = max_empty_calls := by
  intro fuel
  induction fuel with
  | zero => intro s k states r s3 _ h _; cases h
  | succ n ih =>
    intro s k states r s3 hle h hres
    rw [fetch_all_orders] at h
    by_cases hg : s.emptyCalls ≥ max_empty_calls
    · rw [if_pos hg] at h
      injection h with h
      subst h
      simp only at hres
      injection hres with hres
      subst hres
      exact Nat.le_antisymm hle hg
    · rw [if_neg hg] at h
      cases hp : pages k with
      | error e =>
        rw [hp] at h
        injection h with h
        subst h
        simp at hres
      | ok page =>
        rw [hp] at h
        dsimp only at h
        cases hs : fetchStep sd ed page s with
        | error e =>
          rw [hs] at h
          dsimp only at h
          injection h with h
          subst h
          simp at hres
        | ok pr =>
          obtain ⟨s2, ob⟩ := pr
          rw [hs] at h
          have hinv := fetchStep_ok_inv sd ed page s s2 ob hs
          have hle2 : s2.emptyCalls ≤ max_empty_calls := by
            simp only [max_empty_calls] at hg hle ⊢
            rcases hinv.2.1 with ⟨_, he, _, _⟩ | ⟨he, _⟩ <;> omega
          cases ob with
          | none => exact ih s2 (k + 1) states r s3 hle2 h hres
          | some batch =>
            dsimp only at h
            cases hrec : fetch_all_orders pages sd ed seller now n s2 (k + 1)
                (update_etl_state states seller 0 s2.totalFetched now "running"
                  (batch.getLast?.map fun o => o.id)) with
            | none => rw [hrec] at h; cases h
            | some r2 =>
              rw [hrec] at h
              injection h with h
              subst h
              exact ih s2 (k + 1) _ r2 s3 hle2 hrec hres

theorem run_batches_inv (pages : Nat → Except String (List RawOrder))
    (sd ed : Option String) (seller now : Int) :
    ∀ (fuel : Nat) (s : FetchState) (k : Nat) (states : List ETLState)
      (r : RunOutcome),
      fetch_all_orders pages sd ed seller now fuel s k states = some r →
      (∀ x, s.seen.contains x = true → ∀ b ∈ r.batches, ∀ o ∈ b, o.id ≠ x)
      ∧ r.batches.Pairwise
          (fun b1 b2 => ∀ o1 ∈ b1, ∀ o2 ∈ b2, o1.id ≠ o2.id) := by
  intro fuel
  induction fuel with
  | zero => intro s k states r h; cases h
  | succ n ih =>
    intro s k states r h
    rw [fetch_all_orders] at h
    by_cases hg : s.emptyCalls ≥ max_empty_calls
    · rw [if_pos hg] at h
      injection h with h
      subst h
      exact ⟨fun _ _ b hb => absurd hb (List.not_mem_nil b), List.Pairwise.nil⟩
    · rw [if_neg hg] at h
      cases hp : pages k with
      | error e =>
        rw [hp] at h
        injection h with h
        subst h
        exact ⟨fun _ _ b hb => absurd hb (List.not_mem_nil b), List.Pairwise.nil⟩
      | ok page =>
        rw [hp] at h
        dsimp only at h
        cases hs : fetchStep sd ed page s with
        | error e =>
          rw [hs] at h
          dsimp only at h
          injection h with h
          subst h
          exact ⟨fun _ _ b hb => absurd hb (List.not_mem_nil b), List.Pairwise.nil⟩
        | ok pr =>
          obtain ⟨s2, ob⟩ := pr
          rw [hs] at h
          have hinv := fetchStep_ok_inv sd ed page s s2 ob hs
          cases ob with
          | none =>
            obtain ⟨ih1, ih2⟩ := ih s2 (k + 1) states r h
            exact ⟨fun x hx => ih1 x (hinv.1 x hx), ih2⟩
          | some batch =>
            dsimp only at h
            cases hrec : fetch_all_orders pages sd ed seller now n s2 (k + 1)
                (update_etl_state states seller 0 s2.totalFetched now "running"
                  (batch.getLast?.map fun o => o.id)) with
            | none => rw [hrec] at h; cases h
            | some r2 =>
              rw [hrec] at h
              injection h with h
              subst h
              obtain ⟨ih1, ih2⟩ := ih s2 (k + 1) _ r2 hrec
              have hbatch := hinv.2.2 batch rfl
              constructor
              · intro x hx b hb o ho
                rcases List.mem_cons.mp hb with rfl | hb2
                · intro hid
                  have := (hbatch o ho).1
                  rw [hid] at this
                  rw [hx] at this
                  cases this
                · exact ih1 x (hinv.1 x hx) b hb2 o ho
              · refine List.Pairwise.cons ?_ ih2
                intro b2 hb2 o1 ho1 o2 ho2
                have hseen1 : s2.seen.contains o1.id = true := (hbatch o1 ho1).2
                exact (ih1 o1.id hseen1 b2 hb2 o2 ho2).symm

theorem run_terminates (p : List RawOrder) (sd ed : Option String)
    (seller now : Int) :
    ∀ (fuel : Nat) (s : FetchState) (k : Nat) (states : List ETLState),
      s.emptyCalls ≤ max_empty_calls →
      4 * (p.filter (fun o => !(s.seen.contains o.id))).length
        + (3 - s.emptyCalls) + 1 ≤ fuel →
      (fetch_all_orders (fun _ => .ok p) sd ed seller now fuel s k states).isSome
        = true := by
  intro fuel
  induction fuel with
  | zero => intro s k states _ hf; omega
  | succ n ih =>
    intro s k states hle hf
    rw [fetch_all_orders]
    by_cases hg : s.emptyCalls ≥ max_empty_calls
    · rw [if_pos hg]; rfl
    · rw [if_neg hg]
      dsimp only
      cases hs : fetchStep sd ed p s with
      | error e => rfl
      | ok pr =>
        obtain ⟨s2, ob⟩ := pr
        have hinv := fetchStep_ok_inv sd ed p s s2 ob hs
        have hle2 : s2.emptyCalls ≤ max_empty_calls := by
          simp only [max_empty_calls] at hg hle ⊢
          rcases hinv.2.1 with ⟨_, he, _, _⟩ | ⟨he, _⟩ <;> omega
        have hmeasure : 4 * (p.filter (fun o => !(s2.seen.contains o.id))).length
            + (3 - s2.emptyCalls) + 1 ≤ n := by
          simp only [max_empty_calls] at hg
          rcases hinv.2.1 with ⟨hseen, he, _, _⟩ | ⟨he, o, hop, hof, hot⟩
          · rw [hseen, he]
            omega
          · have hmono : ∀ a ∈ p, (!(s2.seen.contains a.id)) = true →
                (!(s.seen.contains a.id)) = true := by
              intro a _ hx
              cases hcs : s.seen.contains a.id with
              | false => rfl
              | true =>
                have := hinv.1 a.id hcs
                rw [this] at hx
                cases hx
            have hstrict := length_filter_lt p
              (fun o => !(s.seen.contains o.id)) (fun o => !(s2.seen.contains o.id))
              hmono o hop
              (by show (!(s.seen.contains o.id)) = true; rw [hof]; rfl)
              (by show (!(s2.seen.contains o.id)) = false; rw [hot]; rfl)
            omega
        cases ob with
        | none => exact ih s2 (k + 1) states hle2 hmeasure
        | some batch =>
          have hrec := ih s2 (k + 1)
            (update_etl_state states seller 0 s2.totalFetched now "running"
              (batch.getLast?.map fun o => o.id)) hle2 hmeasure
          cases hr : fetch_all_orders (fun _ => .ok p) sd ed seller now n s2 (k + 1)
              (update_etl_state states seller 0 s2.totalFetched now "running"
                (batch.getLast?.map fun o => o.id)) with
          | none =>
            rw [hr] at hrec
            simp at hrec
          | some r2 =>
            dsimp only
            rw [hr]
            rfl

theorem run_three_noNew (pages : Nat → Except String (List RawOrder))
    (sd ed : Option String) (seller now : Int) (k : Nat)
    (states : List ETLState) (s : FetchState) (p1 p2 p3 : List RawOrder)
    (fuel : Nat) (he : s.emptyCalls = 0)
    (hp1 : pages k = .ok p1)
    (h1 : p1.filter (fun o => !(s.seen.contains o.id)) = [])
    (hp2 : pages (k + 1) = .ok p2)
    (h2 : p2.filter (fun o => !(s.seen.contains o.id)) = [])
    (hp3 : pages (k + 2) = .ok p3)
    (h3 : p3.filter (fun o => !(s.seen.contains o.id)) = []) :
    fetch_all_orders pages sd ed seller now (fuel + 4) s k states
      = some ⟨[], .ok ⟨s.seen, 3, s.totalFetched⟩, states⟩ := by
  obtain ⟨seen, ec, tot⟩ := s
  simp only at he h1 h2 h3 ⊢
  subst he
  have hfuel : fuel + 4 = fuel + 1 + 1 + 1 + 1 := by omega
  rw [hfuel]
  rw [fetch_all_orders]
  rw [if_neg (by show ¬((0 : Nat) ≥ max_empty_calls); decide)]
  rw [hp1]
  dsimp only
  rw [fetchStep_noNew sd ed p1 ⟨seen, 0, tot⟩ h1]
  dsimp only
  rw [fetch_all_orders]
  rw [if_neg (by show ¬((0 + 1 : Nat) ≥ max_empty_calls); decide)]
  rw [hp2]
  dsimp only
  rw [fetchStep_noNew sd ed p2 ⟨seen, 1, tot⟩ h2]
  dsimp only
  rw [fetch_all_orders]
  rw [if_neg (by show ¬((1 + 1 : Nat) ≥ max_empty_calls); decide)]
  rw [hp3]
  dsimp only
  rw [fetchStep_noNew sd ed p3 ⟨seen, 2, tot⟩ h3]
  dsimp only
  rw [fetch_all_orders]
  rw [if_pos (by show (2 + 1 : Nat) ≥ max_empty_calls; decide)]

theorem updateFirstState_find (seller : Int) (f : ETLState → ETLState)
    (nr : ETLState) (hf : ∀ r, (f r).seller_id = r.seller_id)
    (hnr : nr.seller_id = seller) (rows : List ETLState) :
    (updateFirstState seller f nr rows).find? (fun r => r.seller_id == seller)
      = some (match rows.find? (fun r => r.seller_id == seller) with
              | some prev => f prev
              | none => nr) := by
  induction rows with
  | nil =>
    rw [updateFirstState]
    simp [List.find?_cons, hnr]
  | cons a rows ih =>
    rw [updateFirstState]
    by_cases ha : a.seller_id = seller
    · rw [if_pos ha]
      have hfa : ((f a).seller_id == seller) = true := by
        rw [hf a, ha]; exact beq_self_eq_true seller
      have haa : (a.seller_id == seller) = true := by
        rw [ha]; exact beq_self_eq_true seller
      simp [List.find?_cons, hfa, haa]
    · rw [if_neg ha]
      have hb : (a.seller_id == seller) = false := beq_eq_false_iff_ne.mpr ha
      simp only [List.find?_cons, hb, cond_false]
      exact ih

theorem update_etl_state_find (rows : List ETLState) (seller : Int)
    (offset total now : Int) (status : String) (lid : Option String) :
    (update_etl_state rows seller offset total now status lid).find?
        (fun r => r.seller_id == seller)
      = some (applyStateFields offset total now status lid
          (match rows.find? (fun r => r.seller_id == seller) with
           | some prev => prev
           | none => freshStateRow seller)) := by
  rw [update_etl_state]
  rw [updateFirstState_find seller (applyStateFields offset total now status lid)
    (applyStateFields offset total now status lid (freshStateRow seller))
    (fun r => rfl) rfl rows]
  cases rows.find? (fun r => r.seller_id == seller) <;> rfl

theorem replaceFirst_ids (l : List Order) (t : Order) :
    (replaceFirstOrder l t).map (fun r => r.id) = l.map (fun r => r.id) := by
  induction l with
  | nil => rfl
  | cons a l ih =>
    rw [replaceFirstOrder]
    by_cases ha : a.id = t.id
    · rw [if_pos ha]
      simp [ha]
    · rw [if_neg ha]
      simp [ih]

theorem replaceFirst_mem (l : List Order) (t : Order)
    (h : l.any (fun r => r.id == t.id) = true) : t ∈ replaceFirstOrder l t := by
  induction l with
  | nil => simp at h
  | cons a l ih =>
    rw [replaceFirstOrder]
    by_cases ha : a.id = t.id
    · rw [if_pos ha]
      exact List.mem_cons_self _ _
    · rw [if_neg ha]
      refine List.mem_cons_of_mem a (ih ?_)
      simp only [List.any_cons, Bool.or_eq_true] at h
      rcases h with h | h
      · exact absurd (eq_of_beq h) ha
      · exact h

theorem replaceFirst_unique (l : List Order) (t : Order)
    (hnd : (l.map (fun r => r.id)).Nodup) :
    ∀ r ∈ replaceFirstOrder l t, r.id = t.id → r = t := by
  induction l with
  | nil => intro r hr; cases hr
  | cons a l ih =>
    rw [List.map_cons, List.nodup_cons] at hnd
    intro r hr hid
    rw [replaceFirstOrder] at hr
    by_cases ha : a.id = t.id
    · rw [if_pos ha] at hr
      rcases List.mem_cons.mp hr with rfl | hr2
      · rfl
      · exfalso
        apply hnd.1
        rw [ha, ← hid]
        exact List.mem_map_of_mem _ hr2
    · rw [if_neg ha] at hr
      rcases List.mem_cons.mp hr with rfl | hr2
      · exact absurd hid ha
      · exact ih hnd.2 r hr2 hid

theorem transform_shape (o : RawOrder) (t : Transformed)
    (h : transform_order o = .ok t) :
    t.order.id = o.id ∧ (∀ it ∈ t.items, it.order_id = o.id)
      ∧ (∀ pay ∈ t.payments, pay.order_id = o.id) := by
  rw [transform_order] at h
  cases hc : computeProcessingTime o with
  | error e => rw [hc] at h; cases h
  | ok pt =>
    rw [hc] at h
    injection h with h
    subst h
    refine ⟨rfl, ?_, ?_⟩
    · intro it hit
      obtain ⟨rawIt, _, rfl⟩ := List.mem_map.mp hit
      rfl
    · intro pay hp
      obtain ⟨rawP, _, rfl⟩ := List.mem_map.mp hp
      rfl

/-! ## Claim theorems -/

/-- Claim C1: for an order id already present in the `orders` table, loading a
transformed record for that id overwrites every scalar field of the existing
row in place (the row with that id becomes exactly the new record, no row is
added or removed), and exactly the new record's item and payment rows exist
for that id afterwards — no duplicates, no leftovers from earlier loads; for
an id not present, a new `orders` row is inserted. -/
theorem C1_load_batch_upsert (db : Db) (raw : RawOrder) (t : Transformed)
    (htr : transform_order raw = .ok t)
    (hnd : (db.orders.map (fun r => r.id)).Nodup) :
    (db.orders.any (fun r => r.id == t.order.id) = true →
        (load_batch db [t]).items.filter (fun i => i.order_id == t.order.id)
            = t.items
        ∧ (load_batch db [t]).payments.filter (fun p => p.order_id == t.order.id)
            = t.payments
        ∧ t.order ∈ (load_batch db [t]).orders
        ∧ (∀ r ∈ (load_batch db [t]).orders, r.id = t.order.id → r = t.order)
        ∧ (load_batch db [t]).orders.map (fun r => r.id)
            = db.orders.map (fun r => r.id))
    ∧ (db.orders.any (fun r => r.id == t.order.id) = false →
        (load_batch db [t]).orders = db.orders ++ [t.order]
        ∧ (load_batch db [t]).items = db.items ++ t.items
        ∧ (load_batch db [t]).payments = db.payments ++ t.payments) := by
  have hlb : load_batch db [t] = load_one db t := rfl
  obtain ⟨hid, hitems, hpays⟩ := transform_shape raw t htr
  constructor
  · intro hany
    rw [hlb, load_one, if_pos hany]
    refine ⟨?_, ?_, ?_, ?_, ?_⟩
    · show ((db.items.filter fun i => !(i.order_id == t.order.id)) ++ t.items).filter
          (fun i => i.order_id == t.order.id) = t.items
      rw [List.filter_append]
      have hdel : (db.items.filter fun i => !(i.order_id == t.order.id)).filter
          (fun i => i.order_id == t.order.id) = [] := by
        apply List.filter_eq_nil_iff.mpr
        intro a ha
        have h2 := (List.mem_filter.mp ha).2
        simp only [Bool.not_eq_true'] at h2
        simp [h2]
      have hkeep : t.items.filter (fun i => i.order_id == t.order.id) = t.items := by
        apply List.filter_eq_self.mpr
        intro a ha
        have h3 := hitems a ha
        simp [h3, hid]
      rw [hdel, hkeep, List.nil_append]
    · show ((db.payments.filter fun p => !(p.order_id == t.order.id)) ++ t.payments).filter
          (fun p => p.order_id == t.order.id) = t.payments
      rw [List.filter_append]
      have hdel : (db.payments.filter fun p => !(p.order_id == t.order.id)).filter
          (fun p => p.order_id == t.order.id) = [] := by
        apply List.filter_eq_nil_iff.mpr
        intro a ha
        have h2 := (List.mem_filter.mp ha).2
        simp only [Bool.not_eq_true'] at h2
        simp [h2]
      have hkeep : t.payments.filter (fun p => p.order_id == t.order.id) = t.payments := by
        apply List.filter_eq_self.mpr
        intro a ha
        have h3 := hpays a ha
        simp [h3, hid]
      rw [hdel, hkeep, List.nil_append]
    · exact replaceFirst_mem db.orders t.order hany
    · exact replaceFirst_unique db.orders t.order hnd
    · exact replaceFirst_ids db.orders t.order
  · intro hany
    rw [hlb, load_one, if_neg (by simp [hany])]
    exact ⟨rfl, rfl, rfl⟩

/-- Claim C2: the fetch loop terminates exactly through the three-consecutive
empty/no-new-page counter and in no other way during normal operation: (1)
whenever a run from a legal state exits normally, the final state's counter
equals `max_empty_calls = 3`; (2) as soon as three consecutive page fetches
yield zero new (not-previously-seen) orders, the run returns right after them
with no further batches; (3) the loop terminates even when the upstream API
returns the same page content forever (fuel `4 * page.length + 4` always
suffices for a constant page stream). -/
theorem C2_fetch_terminates_on_three_empty :
    (∀ (pages : Nat → Except String (List RawOrder)) (sd ed : Option String)
        (seller now : Int) (fuel : Nat) (s : FetchState) (k : Nat)
        (states : List ETLState) (r : RunOutcome) (s3 : FetchState),
        s.emptyCalls ≤ max_empty_calls →
        fetch_all_orders pages sd ed seller now fuel s k states = some r →
        r.result = .ok s3 → s3.emptyCalls = max_empty_calls)
    ∧ (∀ (pages : Nat → Except String (List RawOrder)) (sd ed : Option String)
        (seller now : Int) (k : Nat) (states : List ETLState) (s : FetchState)
        (p1 p2 p3 : List RawOrder) (fuel : Nat),
        s.emptyCalls = 0 →
        pages k = .ok p1 →
        p1.filter (fun o => !(s.seen.contains o.id)) = [] →
        pages (k + 1) = .ok p2 →
        p2.filter (fun o => !(s.seen.contains o.id)) = [] →
        pages (k + 2) = .ok p3 →
        p3.filter (fun o => !(s.seen.contains o.id)) = [] →
        fetch_all_orders pages sd ed seller now (fuel + 4) s k states
          = some ⟨[], .ok ⟨s.seen, 3, s.totalFetched⟩, states⟩)
    ∧ (∀ (p : List RawOrder) (sd ed : Option String) (seller now : Int)
        (s : FetchState) (k : Nat) (states : List ETLState),
        s.emptyCalls ≤ max_empty_calls →
        (fetch_all_orders (fun _ => .ok p) sd ed seller now
          (4 * p.length + 4) s k states).isSome = true) := by
  refine ⟨?_, ?_, ?_⟩
  · exact fun pages sd ed seller now fuel s k states r s3 hle hrun hres =>
      run_only_exit_at_three pages sd ed seller now fuel s k states r s3 hle hrun hres
  · exact fun pages sd ed seller now k states s p1 p2 p3 fuel he hp1 h1 hp2 h2 hp3 h3 =>
      run_three_noNew pages sd ed seller now k states s p1 p2 p3 fuel he hp1 h1 hp2 h2 hp3 h3
  · intro p sd ed seller now s k states hle
    refine run_terminates p sd ed seller now (4 * p.length + 4) s k states hle ?_
    have hfl := List.length_filter_le (fun o => !(s.seen.contains o.id)) p
    simp only [max_empty_calls] at hle
    omega

/-- Claim C3: within one run of `fetch_all_orders` started from the
paused-state-seeded initial state, an order id that is in the seen set —
whether seeded from the seller's existing `orders` rows or added when an
earlier batch was emitted — never appears in any batch yielded to the caller
afterwards: seeded ids appear in no batch at all, and the yielded batches
are pairwise disjoint in ids. -/
theorem C3_seen_ids_never_reemitted (pages : Nat → Except String (List RawOrder))
    (sd ed : Option String) (seller now : Int) (fuel k : Nat)
    (states0 states : List ETLState) (dbOrders : List Order) (r : RunOutcome)
    (h : fetch_all_orders pages sd ed seller now fuel
        (initFetchState states0 dbOrders seller) k states = some r) :
    (∀ x, (initFetchState states0 dbOrders seller).seen.contains x = true →
        ∀ b ∈ r.batches, ∀ o ∈ b, o.id ≠ x)
    ∧ r.batches.Pairwise (fun b1 b2 => ∀ o1 ∈ b1, ∀ o2 ∈ b2, o1.id ≠ o2.id) :=
  run_batches_inv pages sd ed seller now fuel
    (initFetchState states0 dbOrders seller) k states r h

/-- Claim C7: once the configured number of calls has been made within the
current 1-minute window, the next `_req` raises "Rate limit exceeded" before
any network request is issued (zero requests made, state unchanged); a call
made after the window has elapsed resets the counter to zero and proceeds
(one request made, the new window counts only this call). -/
theorem C7_rate_limit (limit : Nat) (now : Int) (s : RateState) :
    (¬(now - s.reset > 60) → s.calls ≥ limit →
        ml_req limit now s = (s, some "Rate limit exceeded", 0))
    ∧ (now - s.reset > 60 → 0 < limit →
        ml_req limit now s = (⟨1, now⟩, none, 1)) := by
  constructor
  · intro hwin hcalls
    simp [ml_req, check_rate, hwin, hcalls]
  · intro hwin hlim
    have h0 : ¬((0 : Nat) ≥ limit) := by omega
    simp [ml_req, check_rate, hwin, h0]

/-- Claim C8: when the page-processing body of the fetch loop raises (the
page fetch itself or the date filter), the run writes the seller's ETLState
with status `"error"` and `total_processed` equal to the running total so
far, re-raises the same exception, and yields no further batches (no retry
at this layer). -/
theorem C8_error_writes_state_and_reraises
    (pages : Nat → Except String (List RawOrder)) (sd ed : Option String)
    (seller now : Int) (fuel : Nat) (s : FetchState) (k : Nat)
    (states : List ETLState) (e : String)
    (hlt : s.emptyCalls < max_empty_calls)
    (herr : ((pages k).bind fun page => fetchStep sd ed page s) = .error e) :
    fetch_all_orders pages sd ed seller now (fuel + 1) s k states
      = some ⟨[], .error e,
          update_etl_state states seller 0 s.totalFetched now "error" none⟩
    ∧ ∃ row, (update_etl_state states seller 0 s.totalFetched now "error"
          none).find? (fun r => r.seller_id == seller) = some row
        ∧ row.status = "error" ∧ row.total_processed = s.totalFetched := by
  have hlt3 : s.emptyCalls < 3 := hlt
  constructor
  · rw [fetch_all_orders]
    rw [if_neg (by simp only [ge_iff_le, max_empty_calls]; omega)]
    cases hp : pages k with
    | error e0 =>
      rw [hp] at herr
      simp only [Except.bind] at herr
      injection herr with he
      subst he
      rfl
    | ok page =>
      rw [hp] at herr
      simp only [Except.bind] at herr
      dsimp only
      rw [herr]
  · exact ⟨_, update_etl_state_find states seller 0 s.totalFetched now "error" none,
      rfl, rfl⟩

/-- Claim C9: the top-level KeyboardInterrupt handler upserts the seller's
ETLState row with status `"paused"` and `total_processed = 0`, regardless of
what any earlier per-batch update had recorded in that row. -/
theorem C9_interrupt_writes_paused_zero (rows : List ETLState)
    (seller now : Int) :
    ∃ row, (main_on_interrupt rows seller now).find?
        (fun r => r.seller_id == seller) = some row
      ∧ row.status = "paused" ∧ row.total_processed = 0 := by
  have h := update_etl_state_find rows seller 0 0 now "paused" none
  exact ⟨_, by rw [main_on_interrupt]; exact h, rfl, rfl⟩

/-- Claim C10: a `_update_etl_state` call with `last_order_id` absent/None
(as in every "error"/"failed"/"completed"/"paused" write) leaves the
existing row's `last_order_id` unchanged while overwriting `last_offset`,
`total_processed`, `last_run_date` and `status`. -/
theorem C10_none_preserves_last_order_id (rows : List ETLState)
    (seller : Int) (offset total now : Int) (status : String) (prev : ETLState)
    (hfind : rows.find? (fun r => r.seller_id == seller) = some prev) :
    ∃ row, (update_etl_state rows seller offset total now status none).find?
          (fun r => r.seller_id == seller) = some row
      ∧ row.last_order_id = prev.last_order_id
      ∧ row.last_offset = offset ∧ row.total_processed = total
      ∧ row.last_run_date = now ∧ row.status = status := by
  have h := update_etl_state_find rows seller offset total now status none
  rw [hfind] at h
  exact ⟨_, h, rfl, rfl, rfl, rfl, rfl⟩

/-- `safe_datetime` never succeeds on the empty (falsy) string. -/
theorem safe_datetime_ne_empty (s : String) (c : PyDateTime)
    (h : safe_datetime (some s) = some c) : s ≠ "" := by
  intro he
  rw [he, safe_datetime, if_pos rfl] at h
  cases h

/-- Claim C4 (amended): after a page with at least one new order, the ids
added to the seen set depend on the date filter. When every new order was
excluded by the filter, all of the page's ids end up in the seen set; but
when at least one new order survives, exactly the surviving (yielded) orders'
ids are added — a filtered-out new order from such a page is not marked and
can be fetched as "new" again on a later page. Previously-seen ids always
remain marked. -/
theorem C4_amended_seen_marking (sd ed : Option String) (page : List RawOrder)
    (s s2 : FetchState) :
    (∀ ob, fetchStep sd ed page s = .ok (s2, ob) →
        ∀ o ∈ page, s.seen.contains o.id = true → s2.seen.contains o.id = true)
    ∧ (fetchStep sd ed page s = .ok (s2, none) →
        page.filter (fun o => !(s.seen.contains o.id)) ≠ [] →
        ∀ o ∈ page, s2.seen.contains o.id = true)
    ∧ (∀ b, fetchStep sd ed page s = .ok (s2, some b) →
        ∀ o ∈ page, (s2.seen.contains o.id = true ↔
          (s.seen.contains o.id = true ∨ o.id ∈ b.map (fun o2 => o2.id)))) := by
  refine ⟨fun ob h o _ hc => (fetchStep_ok_inv sd ed page s s2 ob h).1 o.id hc,
    ?_, ?_⟩
  · intro h hne o ho
    rw [fetchStep] at h
    by_cases hpe : page.isEmpty = true
    · rw [List.isEmpty_iff.mp hpe] at ho
      cases ho
    · rw [if_neg hpe] at h
      dsimp only at h
      by_cases hno : (page.filter fun o => !(s.seen.contains o.id)).isEmpty = true
      · exact absurd (List.isEmpty_iff.mp hno) hne
      · rw [if_neg hno] at h
        cases hf : filter_orders_by_date
            (page.filter fun o => !(s.seen.contains o.id)) sd ed with
        | error e => rw [hf] at h; cases h
        | ok filtered =>
          rw [hf] at h
          dsimp only at h
          by_cases hfe : filtered.isEmpty = true
          · rw [if_pos hfe] at h
            simp only [Except.ok.injEq, Prod.mk.injEq] at h
            obtain ⟨h2, _⟩ := h
            subst h2
            cases hcs : s.seen.contains o.id with
            | true => exact contains_addSeen_of_contains _ _ _ hcs
            | false =>
              apply (contains_addSeen _ _ _).mpr
              refine Or.inr (List.mem_map_of_mem _ ?_)
              exact List.mem_filter.mpr ⟨ho, by rw [hcs]; rfl⟩
          · rw [if_neg hfe] at h
            simp only [Except.ok.injEq, Prod.mk.injEq] at h
            exact absurd h.2 (by simp)
  · intro b h o ho
    rw [fetchStep] at h
    by_cases hpe : page.isEmpty = true
    · rw [if_pos hpe] at h
      simp only [Except.ok.injEq, Prod.mk.injEq] at h
      exact absurd h.2 (by simp)
    · rw [if_neg hpe] at h
      dsimp only at h
      by_cases hno : (page.filter fun o => !(s.seen.contains o.id)).isEmpty = true
      · rw [if_pos hno] at h
        simp only [Except.ok.injEq, Prod.mk.injEq] at h
        exact absurd h.2 (by simp)
      · rw [if_neg hno] at h
        cases hf : filter_orders_by_date
            (page.filter fun o => !(s.seen.contains o.id)) sd ed with
        | error e => rw [hf] at h; cases h
        | ok filtered =>
          rw [hf] at h
          dsimp only at h
          by_cases hfe : filtered.isEmpty = true
          · rw [if_pos hfe] at h
            simp only [Except.ok.injEq, Prod.mk.injEq] at h
            exact absurd h.2 (by simp)
          · rw [if_neg hfe] at h
            simp only [Except.ok.injEq, Prod.mk.injEq] at h
            obtain ⟨h2, hb⟩ := h
            subst h2
            injection hb with hb
            subst hb
            exact contains_addSeen s.seen (filtered.map fun o2 => o2.id) o.id

/-- Claim C5 (amended): `_filter_orders_by_date` is not total. With no bounds
the input passes through unchanged and no date is parsed; with a bound, a
malformed `date_created` stamp raises (aborting the filter) instead of the
order being skipped; when everything parses (with matching aware/naive
kinds) the filter keeps exactly the orders passing the inclusive range test
on `date_created`. -/
theorem C5_amended_filter_raises :
    (∀ l : List RawOrder, filter_orders_by_date l none none = .ok l)
    ∧ (∀ (l : List RawOrder) (sd ed : Option String) (o : RawOrder),
        o ∈ l → ¬(sd = none ∧ ed = none) →
        (∃ e, includeOrder sd ed o = .error e) →
        ∃ e2, filter_orders_by_date l sd ed = .error e2)
    ∧ (∀ (l f : List RawOrder) (sd ed : Option String),
        filter_orders_by_date l sd ed = .ok f →
        ∀ o, o ∈ f ↔ o ∈ l ∧
          (includeOrder sd ed o = .ok true ∨ (sd = none ∧ ed = none)))
    ∧ (∀ (o : RawOrder) (ss ee : String) (od sdt edt : PyDateTime),
        filterParseDate o.date_created = .ok od →
        pyFromIso ss = .ok sdt → pyFromIso ee = .ok edt →
        od.offset.isSome = sdt.offset.isSome →
        od.offset.isSome = edt.offset.isSome →
        includeOrder (some ss) (some ee) o
          = .ok (decide (pyAbsTime sdt ≤ pyAbsTime od
              ∧ pyAbsTime od ≤ pyAbsTime edt))) := by
  refine ⟨?_, ?_, ?_, ?_⟩
  · intro l
    rw [filter_orders_by_date, if_pos ⟨rfl, rfl⟩]
  · intro l sd ed o ho hn ⟨e, he⟩
    rw [filter_orders_by_date, if_neg hn]
    exact filterGo_error_of_mem sd ed l o e ho he
  · intro l f sd ed h o
    rw [filter_orders_by_date] at h
    by_cases hn : sd = none ∧ ed = none
    · rw [if_pos hn] at h
      injection h with h
      subst h
      constructor
      · exact fun hm => ⟨hm, Or.inr hn⟩
      · exact fun hm => hm.1
    · rw [if_neg hn] at h
      have := filterGo_mem sd ed l f h o
      constructor
      · intro hm
        obtain ⟨h1, h2⟩ := this.mp hm
        exact ⟨h1, Or.inl h2⟩
      · rintro ⟨h1, h2 | h2⟩
        · exact this.mpr ⟨h1, h2⟩
        · exact absurd h2 hn
  · intro o ss ee od sdt edt hod hsdt hedt hoff1 hoff2
    rw [includeOrder, hod]
    dsimp only
    rw [hsdt]
    dsimp only
    rw [pyLt, if_pos hoff1]
    dsimp only
    by_cases h1 : pyAbsTime od < pyAbsTime sdt
    · rw [decide_eq_true h1]
      have hrhs : decide (pyAbsTime sdt ≤ pyAbsTime od
          ∧ pyAbsTime od ≤ pyAbsTime edt) = false :=
        decide_eq_false (fun hand => absurd hand.1 (not_le.mpr h1))
      rw [hrhs]
      rfl
    · rw [decide_eq_false h1]
      rw [hedt]
      dsimp only
      rw [pyGt, if_pos hoff2]
      dsimp only
      by_cases h2 : pyAbsTime edt < pyAbsTime od
      · rw [decide_eq_true h2]
        have hrhs : decide (pyAbsTime sdt ≤ pyAbsTime od
            ∧ pyAbsTime od ≤ pyAbsTime edt) = false :=
          decide_eq_false (fun hand => absurd hand.2 (not_le.mpr h2))
        rw [hrhs]
        rfl
      · rw [decide_eq_false h2]
        have hrhs : decide (pyAbsTime sdt ≤ pyAbsTime od
            ∧ pyAbsTime od ≤ pyAbsTime edt) = true :=
          decide_eq_true ⟨not_lt.mp h1, not_lt.mp h2⟩
        rw [hrhs]
        rfl

/-- Claim C6 (amended): when `date_created` and `date_closed` both parse
under `safe_datetime` and agree in timezone-awareness, `transform_order`
sets `processing_time_hours` to `(date_closed - date_created)` expressed in
hours; when `date_closed` is absent or either stamp fails to parse, it is
null and `transform_order` succeeds.  But when the two stamps parse with
mixed awareness (e.g. a trailing `Z` becomes `+00:00`-aware while a stripped
`-03:00` becomes naive), the subtraction raises `TypeError` and
`transform_order` raises instead of producing a record. -/
theorem C6_amended_processing_time (o : RawOrder) :
    (∀ c1 c2, safe_datetime (some o.date_created) = some c1 →
        safe_datetime o.date_closed = some c2 →
        c1.offset.isSome = c2.offset.isSome →
        ∃ t, transform_order o = .ok t ∧
          t.order.processing_time_hours
            = some (hoursOfMicros (pyAbsTime c2 - pyAbsTime c1)))
    ∧ ((o.date_closed = none ∨ safe_datetime (some o.date_created) = none ∨
          safe_datetime o.date_closed = none) →
        ∃ t, transform_order o = .ok t ∧ t.order.processing_time_hours = none)
    ∧ (∀ c1 c2, safe_datetime (some o.date_created) = some c1 →
        safe_datetime o.date_closed = some c2 →
        ¬(c1.offset.isSome = c2.offset.isSome) →
        transform_order o = .error
          "TypeError: cannot subtract offset-naive and offset-aware datetimes") := by
  refine ⟨?_, ?_, ?_⟩
  · intro c1 c2 h1 h2 hoff
    have hc2t : o.date_closed.getD "" ≠ "" := by
      cases hdc : o.date_closed with
      | none => rw [hdc] at h2; cases h2
      | some sdc =>
        rw [hdc] at h2
        simpa using safe_datetime_ne_empty sdc c2 h2
    have hcpt : computeProcessingTime o
        = .ok (some (hoursOfMicros (pyAbsTime c2 - pyAbsTime c1))) := by
      rw [computeProcessingTime,
        if_pos ⟨safe_datetime_ne_empty _ c1 h1, hc2t⟩, h1, h2]
      dsimp only
      rw [pySub, if_pos hoff.symm]
    exact ⟨_, by rw [transform_order, hcpt], rfl⟩
  · intro hdisj
    have hcpt : computeProcessingTime o = .ok none := by
      rw [computeProcessingTime]
      by_cases hcond : o.date_created ≠ "" ∧ o.date_closed.getD "" ≠ ""
      · rw [if_pos hcond]
        rcases hdisj with hn | hn | hn
        · exact absurd (show o.date_closed.getD "" = "" by rw [hn]; rfl) hcond.2
        · cases hc2 : safe_datetime o.date_closed with
          | none => simp [hn]
          | some c2 => simp [hn]
        · cases hc1 : safe_datetime (some o.date_created) with
          | none => simp [hn]
          | some c1 => simp [hc1, hn]
      · rw [if_neg hcond]
    exact ⟨_, by rw [transform_order, hcpt], rfl⟩
  · intro c1 c2 h1 h2 hoff
    have hc2t : o.date_closed.getD "" ≠ "" := by
      cases hdc : o.date_closed with
      | none => rw [hdc] at h2; cases h2
      | some sdc =>
        rw [hdc] at h2
        simpa using safe_datetime_ne_empty sdc c2 h2
    have hcpt : computeProcessingTime o = .error
        "TypeError: cannot subtract offset-naive and offset-aware datetimes" := by
      rw [computeProcessingTime,
        if_pos ⟨safe_datetime_ne_empty _ c1 h1, hc2t⟩, h1, h2]
      dsimp only
      rw [pySub, if_neg (fun hh => hoff hh.symm)]
    rw [transform_order, hcpt]

/-! ## Concrete sample data for witnesses and counterexamples -/

/-- A raw order template with the given id, creation stamp and close stamp. -/
def sampleRaw (id dc : String) (dcl : Option String) : RawOrder :=
  { id := id, seller_id := 354140329, buyer_id := some 42,
    buyer_nickname := some "buyer1", status := "paid", status_detail := none,
    date_created := dc, date_closed := dcl, date_last_updated := none,
    expiration_date := none, total_amount := some 99, paid_amount := some 99,
    currency_id := "BRL", shipping_cost := none, pack_id := none,
    fulfilled := some true, comment := none, tags := none, feedback := none,
    context := none, order_items := [], payments := [] }

def cOrderA : RawOrder := sampleRaw "A" "2026-01-01T00:00:00" none

def cOrderB : RawOrder := sampleRaw "B" "2020-01-01T00:00:00" none

def cOrderC : RawOrder := sampleRaw "C" "2026-02-02T00:00:00" none

def cOrderBad : RawOrder := sampleRaw "BAD" "garbage" none

/-- Mixed-awareness stamps: the trailing `Z` becomes `+00:00` (aware) while
the `-03:00` suffix is stripped (naive). -/
def cOrderMix : RawOrder :=
  sampleRaw "MIX" "2025-01-01T00:00:00Z" (some "2025-01-01T03:00:00-03:00")

def w1Item : RawItem :=
  { element_id := some 1, item_id := some "ITM1", title := some "Shapewear",
    category_id := some "CAT1", variation_id := some 7, seller_sku := some "SKU1",
    quantity := some 2, unit_price := some 10, full_unit_price := some 12,
    sale_fee := some 1, listing_type_id := some "gold", condition := some "new",
    warranty := none, variation_attributes := none }

def w1Pay : RawPayment :=
  { id := "P1", payer_id := some 42, collector_id := some 354140329,
    status := "approved", status_detail := none, payment_method_id := "pix",
    payment_type := "bank_transfer", operation_type := "regular",
    transaction_amount := some 20, total_paid_amount := some 20,
    transaction_amount_refunded := none, date_created := "2024-01-01T00:00:00",
    date_approved := none, date_last_modified := none, installments := some 1,
    installment_amount := none, issuer_id := none, reason := none,
    shipping_cost := none, taxes_amount := none, coupon_amount := none }

def w1Raw : RawOrder :=
  { sampleRaw "A" "2024-01-01T00:00:00" none with
    order_items := [w1Item], payments := [w1Pay] }

/-- The transform of `w1Raw`, written out. -/
def w1T : Transformed :=
  { order :=
      { id := "A", seller_id := 354140329, buyer_id := some 42,
        buyer_nickname := some "buyer1", status := "paid", status_detail := none,
        date_created := some ⟨1704067200000000, none⟩, date_closed := none,
        date_last_updated := none, expiration_date := none,
        total_amount := some 99, paid_amount := some 99, currency_id := "BRL",
        shipping_cost := none, pack_id := none, fulfilled := some true,
        comment := none, tags := none, feedback_data := none,
        context_data := none, processing_time_hours := none }
    items :=
      [{ order_id := "A", element_id := some 1, item_id := some "ITM1",
         title := some "Shapewear", category_id := some "CAT1",
         variation_id := some "7", seller_sku := some "SKU1", quantity := some 2,
         unit_price := some 10, full_unit_price := some 12, sale_fee := some 1,
         listing_type_id := some "gold", condition := some "new",
         warranty := none, variation_attributes := none }]
    payments :=
      [{ id := "P1", order_id := "A", payer_id := some 42,
         collector_id := some 354140329, status := "approved",
         status_detail := none, payment_method_id := "pix",
         payment_type := "bank_transfer", operation_type := "regular",
         transaction_amount := some 20, total_paid_amount := some 20,
         transaction_amount_refunded := none,
         date_created := some ⟨1704067200000000, none⟩, date_approved := none,
         date_last_modified := none, installments := some 1,
         installment_amount := none, issuer_id := none, reason := none,
         shipping_cost := none, taxes_amount := none, coupon_amount := none }] }

/-- A stale row for order id "A" from an earlier load. -/
def w1StaleOrder : Order :=
  { id := "A", seller_id := 354140329, buyer_id := none, buyer_nickname := none,
    status := "cancelled", status_detail := none, date_created := none,
    date_closed := none, date_last_updated := none, expiration_date := none,
    total_amount := some 50, paid_amount := some 0, currency_id := "BRL",
    shipping_cost := none, pack_id := none, fulfilled := none, comment := none,
    tags := none, feedback_data := none, context_data := none,
    processing_time_hours := none }

def w1StaleItem : OrderItem :=
  { order_id := "A", element_id := none, item_id := some "OLD",
    title := some "Old thing", category_id := none, variation_id := none,
    seller_sku := none, quantity := some 1, unit_price := some 5,
    full_unit_price := none, sale_fee := none, listing_type_id := none,
    condition := none, warranty := none, variation_attributes := none }

def w1OtherItem : OrderItem :=
  { w1StaleItem with order_id := "Z", item_id := some "ZED" }

def w1StalePay : Payment :=
  { id := "OLDP", order_id := "A", payer_id := none, collector_id := some 1,
    status := "refunded", status_detail := none, payment_method_id := "visa",
    payment_type := "credit_card", operation_type := "regular",
    transaction_amount := some 5, total_paid_amount := some 5,
    transaction_amount_refunded := some 5, date_created := none,
    date_approved := none, date_last_modified := none, installments := none,
    installment_amount := none, issuer_id := none, reason := none,
    shipping_cost := none, taxes_amount := none, coupon_amount := none }

def w1Db : Db :=
  { orders := [w1StaleOrder], items := [w1StaleItem, w1OtherItem],
    payments := [w1StalePay] }

/-- A paused checkpoint row for seller 1. -/
def pausedRow : ETLState :=
  { seller_id := 1, last_processed_date := none, last_offset := 0,
    total_processed := 5, last_run_date := 100, status := "paused",
    last_order_id := some "A" }

/-- An already-persisted order of seller 1 (feeds the paused-state seeding). -/
def dbOrderA : Order := { w1StaleOrder with seller_id := 1, status := "paid" }

def rawA1 : RawOrder := { cOrderA with seller_id := 1 }

def rawC1 : RawOrder := { cOrderC with seller_id := 1 }

/-- The outcome of the sample resumed run used in the C3 witness. -/
def c3Run : RunOutcome :=
  { batches := [[rawC1]]
    result := .ok ⟨["A", "C"], 3, 6⟩
    states := [{ seller_id := 1, last_processed_date := none, last_offset := 0,
                 total_processed := 6, last_run_date := 0, status := "running",
                 last_order_id := some "C" }] }

def w6Raw : RawOrder :=
  sampleRaw "W6" "2024-01-01T00:00:00" (some "2024-01-01T03:30:00")

def w10Row : ETLState :=
  { seller_id := 1, last_processed_date := none, last_offset := 5,
    total_processed := 7, last_run_date := 11, status := "running",
    last_order_id := some "X" }

/-- The spec's worked example (§8): created 00:00, closed 03:30 give a
processing time of 3.5 hours. -/
theorem hoursOfMicros_three_point_five :
    hoursOfMicros (pyAbsTime ⟨1704079800000000, none⟩
      - pyAbsTime ⟨1704067200000000, none⟩) = 7 / 2 := by
  norm_num [hoursOfMicros, pyAbsTime, Option.getD]

/-! ## Witnesses and counterexamples -/

theorem C1_witness :
    transform_order w1Raw = .ok w1T
    ∧ (w1Db.orders.map (fun r => r.id)).Nodup
    ∧ w1Db.orders.any (fun r => r.id == w1T.order.id) = true
    ∧ ((load_batch w1Db [w1T]).items.filter
          (fun i => i.order_id == w1T.order.id) = w1T.items
      ∧ (load_batch w1Db [w1T]).payments.filter
          (fun p => p.order_id == w1T.order.id) = w1T.payments
      ∧ w1T.order ∈ (load_batch w1Db [w1T]).orders
      ∧ (∀ r ∈ (load_batch w1Db [w1T]).orders, r.id = w1T.order.id → r = w1T.order)
      ∧ (load_batch w1Db [w1T]).orders.map (fun r => r.id)
          = w1Db.orders.map (fun r => r.id)) :=
  ⟨by decide, by decide, by decide,
    (C1_load_batch_upsert w1Db w1Raw w1T (by decide) (by decide)).1 (by decide)⟩

theorem C2_witness :
    ((⟨[], 0, 0⟩ : FetchState).emptyCalls ≤ max_empty_calls
      ∧ fetch_all_orders (fun _ : Nat => (.ok [] : Except String (List RawOrder)))
          none none 1 0 4 ⟨[], 0, 0⟩ 0 [] = some ⟨[], .ok ⟨[], 3, 0⟩, []⟩
      ∧ (RunOutcome.mk [] (.ok ⟨[], 3, 0⟩) []).result = .ok (⟨[], 3, 0⟩ : FetchState)
      ∧ (⟨[], 3, 0⟩ : FetchState).emptyCalls = max_empty_calls)
    ∧ fetch_all_orders (fun _ : Nat => (.ok [] : Except String (List RawOrder)))
        none none 1 0 (0 + 4) ⟨[], 0, 0⟩ 0 [] = some ⟨[], .ok ⟨[], 3, 0⟩, []⟩
    ∧ (fetch_all_orders (fun _ : Nat => (.ok [cOrderA] : Except String (List RawOrder)))
        none none 1 0 (4 * [cOrderA].length + 4) ⟨[], 0, 0⟩ 0 []).isSome = true :=
  ⟨⟨by decide, by decide, by decide,
     C2_fetch_terminates_on_three_empty.1 (fun _ => .ok []) none none 1 0 4
       ⟨[], 0, 0⟩ 0 [] ⟨[], .ok ⟨[], 3, 0⟩, []⟩ ⟨[], 3, 0⟩
       (by decide) (by decide) (by decide)⟩,
   C2_fetch_terminates_on_three_empty.2.1 (fun _ => .ok []) none none 1 0 0 []
     ⟨[], 0, 0⟩ [] [] [] 0 (by decide) (by decide) (by decide) (by decide)
     (by decide) (by decide) (by decide),
   C2_fetch_terminates_on_three_empty.2.2 [cOrderA] none none 1 0
     ⟨[], 0, 0⟩ 0 [] (by decide)⟩

theorem C3_witness :
    fetch_all_orders (fun _ : Nat => (.ok [rawA1, rawC1] : Except String (List RawOrder)))
        none none 1 0 6 (initFetchState [pausedRow] [dbOrderA] 1) 0 [pausedRow]
      = some c3Run
    ∧ ((∀ x, (initFetchState [pausedRow] [dbOrderA] 1).seen.contains x = true →
          ∀ b ∈ c3Run.batches, ∀ o ∈ b, o.id ≠ x)
      ∧ c3Run.batches.Pairwise
          (fun b1 b2 => ∀ o1 ∈ b1, ∀ o2 ∈ b2, o1.id ≠ o2.id)) :=
  ⟨by decide,
   C3_seen_ids_never_reemitted (fun _ => .ok [rawA1, rawC1]) none none 1 0 6 0
     [pausedRow] [pausedRow] [dbOrderA] c3Run (by decide)⟩

theorem C4_counterexample :
    fetchStep (some "2025-01-01") none [cOrderA, cOrderB] ⟨[], 0, 0⟩
      = .ok (⟨["A"], 0, 1⟩, some [cOrderA])
    ∧ [cOrderA, cOrderB].filter
        (fun o => !((⟨[], 0, 0⟩ : FetchState).seen.contains o.id)) ≠ []
    ∧ ((⟨["A"], 0, 1⟩ : FetchState).seen.contains cOrderB.id) = false := by
  decide

theorem C4_witness :
    (fetchStep (some "2025-01-01") none [cOrderB] ⟨[], 0, 0⟩
        = .ok (⟨["B"], 0, 0⟩, none)
      ∧ [cOrderB].filter
          (fun o => !((⟨[], 0, 0⟩ : FetchState).seen.contains o.id)) ≠ []
      ∧ (∀ o ∈ [cOrderB], (⟨["B"], 0, 0⟩ : FetchState).seen.contains o.id = true))
    ∧ (fetchStep (some "2025-01-01") none [cOrderA, cOrderB] ⟨[], 0, 0⟩
        = .ok (⟨["A"], 0, 1⟩, some [cOrderA])
      ∧ ∀ o ∈ [cOrderA, cOrderB],
          ((⟨["A"], 0, 1⟩ : FetchState).seen.contains o.id = true ↔
            ((⟨[], 0, 0⟩ : FetchState).seen.contains o.id = true
              ∨ o.id ∈ [cOrderA].map (fun o2 => o2.id)))) :=
  ⟨⟨by decide, by decide,
     (C4_amended_seen_marking (some "2025-01-01") none [cOrderB]
       ⟨[], 0, 0⟩ ⟨["B"], 0, 0⟩).2.1 (by decide) (by decide)⟩,
   ⟨by decide,
     (C4_amended_seen_marking (some "2025-01-01") none [cOrderA, cOrderB]
       ⟨[], 0, 0⟩ ⟨["A"], 0, 1⟩).2.2 [cOrderA] (by decide)⟩⟩

theorem C5_counterexample :
    filter_orders_by_date [cOrderBad] (some "2024-01-01") none
      = .error "ValueError: Invalid isoformat string: garbage" := by
  decide

theorem C5_witness :
    filter_orders_by_date [cOrderA] none none = .ok [cOrderA]
    ∧ (cOrderBad ∈ [cOrderBad]
      ∧ ¬((some "2024-01-01" : Option String) = none ∧ (none : Option String) = none)
      ∧ ∃ e2, filter_orders_by_date [cOrderBad] (some "2024-01-01") none = .error e2)
    ∧ (filterParseDate cOrderA.date_created = .ok ⟨1767225600000000, none⟩
      ∧ pyFromIso "2025-01-01" = .ok ⟨1735689600000000, none⟩
      ∧ pyFromIso "2027-01-01" = .ok ⟨1798761600000000, none⟩
      ∧ includeOrder (some "2025-01-01") (some "2027-01-01") cOrderA
          = .ok (decide (pyAbsTime ⟨1735689600000000, none⟩
              ≤ pyAbsTime ⟨1767225600000000, none⟩
            ∧ pyAbsTime ⟨1767225600000000, none⟩
              ≤ pyAbsTime ⟨1798761600000000, none⟩))) :=
  ⟨C5_amended_filter_raises.1 [cOrderA],
   ⟨by decide, by decide,
     C5_amended_filter_raises.2.1 [cOrderBad] (some "2024-01-01") none cOrderBad
       (by decide) (by decide)
       ⟨"ValueError: Invalid isoformat string: garbage", by decide⟩⟩,
   ⟨by decide, by decide, by decide,
     C5_amended_filter_raises.2.2.2 cOrderA "2025-01-01" "2027-01-01"
       ⟨1767225600000000, none⟩ ⟨1735689600000000, none⟩ ⟨1798761600000000, none⟩
       (by decide) (by decide) (by decide) rfl rfl⟩⟩

theorem C6_counterexample :
    (safe_datetime (some cOrderMix.date_created)).isSome = true
    ∧ (safe_datetime cOrderMix.date_closed).isSome = true
    ∧ transform_order cOrderMix
      = .error "TypeError: cannot subtract offset-naive and offset-aware datetimes" := by
  decide

theorem C6_witness :
    (safe_datetime (some w6Raw.date_created) = some ⟨1704067200000000, none⟩
      ∧ safe_datetime w6Raw.date_closed = some ⟨1704079800000000, none⟩
      ∧ (PyDateTime.mk 1704067200000000 none).offset.isSome
          = (PyDateTime.mk 1704079800000000 none).offset.isSome
      ∧ ∃ t, transform_order w6Raw = .ok t ∧
          t.order.processing_time_hours = some (hoursOfMicros
            (pyAbsTime ⟨1704079800000000, none⟩ - pyAbsTime ⟨1704067200000000, none⟩)))
    ∧ (cOrderC.date_closed = none
      ∧ ∃ t, transform_order cOrderC = .ok t
          ∧ t.order.processing_time_hours = none) :=
  ⟨⟨by decide, by decide, rfl,
     (C6_amended_processing_time w6Raw).1 ⟨1704067200000000, none⟩
       ⟨1704079800000000, none⟩ (by decide) (by decide) rfl⟩,
   ⟨rfl, (C6_amended_processing_time cOrderC).2.1 (Or.inl rfl)⟩⟩

theorem C7_witness :
    (¬((30 : Int) - (0 : Int) > 60) ∧ (2 : Nat) ≥ 2
      ∧ ml_req 2 30 ⟨2, 0⟩ = (⟨2, 0⟩, some "Rate limit exceeded", 0))
    ∧ ((61 : Int) - (0 : Int) > 60 ∧ (0 : Nat) < 2
      ∧ ml_req 2 61 ⟨2, 0⟩ = (⟨1, 61⟩, none, 1)) :=
  ⟨⟨by decide, by decide, (C7_rate_limit 2 30 ⟨2, 0⟩).1 (by decide) (by decide)⟩,
   ⟨by decide, by decide, (C7_rate_limit 2 61 ⟨2, 0⟩).2 (by decide) (by decide)⟩⟩

theorem C8_witness :
    ((⟨[], 0, 0⟩ : FetchState).emptyCalls < max_empty_calls
      ∧ ((fun _ : Nat => (.error "boom" : Except String (List RawOrder))) 0).bind
          (fun page => fetchStep none none page ⟨[], 0, 0⟩) = .error "boom")
    ∧ (fetch_all_orders (fun _ : Nat => (.error "boom" : Except String (List RawOrder)))
          none none 1 0 (0 + 1) ⟨[], 0, 0⟩ 0 []
        = some ⟨[], .error "boom",
            update_etl_state [] 1 0 (⟨[], 0, 0⟩ : FetchState).totalFetched 0 "error" none⟩
      ∧ ∃ row, (update_etl_state [] 1 0 (⟨[], 0, 0⟩ : FetchState).totalFetched 0
            "error" none).find? (fun r => r.seller_id == 1) = some row
          ∧ row.status = "error"
          ∧ row.total_processed = (⟨[], 0, 0⟩ : FetchState).totalFetched) :=
  ⟨⟨by decide, by decide⟩,
   C8_error_writes_state_and_reraises
     (fun _ => .error "boom") none none 1 0 0 ⟨[], 0, 0⟩ 0 [] "boom"
     (by decide) (by decide)⟩

theorem C10_witness :
    [w10Row].find? (fun r => r.seller_id == 1) = some w10Row
    ∧ ∃ row, (update_etl_state [w10Row] 1 2 9 13 "completed" none).find?
          (fun r => r.seller_id == 1) = some row
        ∧ row.last_order_id = w10Row.last_order_id
        ∧ row.last_offset = 2 ∧ row.total_processed = 9
        ∧ row.last_run_date = 13 ∧ row.status = "completed" :=
  ⟨by decide,
   C10_none_preserves_last_order_id [w10Row] 1 2 9 13 "completed" w10Row (by decide)⟩

end NonecaETL
